import Mathlib

/-!
Verification development for the CallMi signaling server
(`src/main.py`, `src/app.py`, `src/config.py`).

The development shallowly embeds the connection registry
(`ConnectionManager`), the websocket signaling endpoint, the background
room reclamation, and the SQLAlchemy-backed durable room store of
`main.py`.  Python dictionaries (which preserve insertion order and
replace values in place on key collision) are embedded as association
lists with `dinsert` / `dlookup` / `derase`; websocket handles are
embedded as opaque numeric identifiers, and every outbound
`ws.send_json(...)` is recorded as a `(handle, message)` pair in an
output list.  `hashlib.sha256(...).hexdigest()` is embedded as a full
executable SHA-256 over UTF-8 bytes.
-/

namespace CallMi

/-! ## Python dict as an ordered association list -/

variable {α : Type _} {β : Type _} [DecidableEq α]

/-- Embedding of Python `d[k] = v`: replace the value at the first
occurrence of the key, keeping its position, else append at the end
(Python dicts preserve insertion order). -/
def dinsert : List (α × β) → α → β → List (α × β)
  | [], k, v => [(k, v)]
  | (k₀, v₀) :: t, k, v =>
      if k₀ = k then (k, v) :: t else (k₀, v₀) :: dinsert t k v

/-- Embedding of Python `d.get(k)` / `k in d`: first value stored at the
key, if any. -/
def dlookup : List (α × β) → α → Option β
  | [], _ => none
  | (k₀, v₀) :: t, k => if k₀ = k then some v₀ else dlookup t k

/-- Embedding of Python `del d[k]` (on a key-unique list): drop the first
entry with the key. -/
def derase : List (α × β) → α → List (α × β)
  | [], _ => []
  | (k₀, v₀) :: t, k => if k₀ = k then t else (k₀, v₀) :: derase t k

/-- Keys of the dict, in insertion order. -/
def dkeys (l : List (α × β)) : List α := l.map Prod.fst

@[simp] theorem dlookup_nil (k : α) : dlookup ([] : List (α × β)) k = none := rfl

@[simp] theorem dlookup_dinsert_self (l : List (α × β)) (k : α) (v : β) :
    dlookup (dinsert l k v) k = some v := by
  induction l with
  | nil => simp [dinsert, dlookup]
  | cons h t ih =>
      obtain ⟨k₀, v₀⟩ := h
      by_cases hk : k₀ = k
      · simp [dinsert, dlookup, hk]
      · simp [dinsert, dlookup, hk, ih]

theorem mem_of_dlookup_eq_some {l : List (α × β)} {k : α} {v : β}
    (h : dlookup l k = some v) : (k, v) ∈ l := by
  induction l with
  | nil => simp [dlookup] at h
  | cons hd t ih =>
      obtain ⟨k₀, v₀⟩ := hd
      by_cases hk : k₀ = k
      · subst hk
        simp [dlookup] at h
        subst h
        exact List.mem_cons_self _ _
      · simp [dlookup, hk] at h
        exact List.mem_cons_of_mem _ (ih h)

theorem mem_dinsert {l : List (α × β)} {k : α} {v : β} {e : α × β}
    (h : e ∈ dinsert l k v) : e = (k, v) ∨ e ∈ l := by
  induction l with
  | nil => simpa [dinsert] using h
  | cons hd t ih =>
      obtain ⟨k₀, v₀⟩ := hd
      by_cases hk : k₀ = k
      · simp [dinsert, hk] at h
        rcases h with h | h
        · exact Or.inl h
        · exact Or.inr (List.mem_cons_of_mem _ h)
      · simp [dinsert, hk] at h
        rcases h with h | h
        · exact Or.inr (by simp [h])
        · rcases ih h with h | h
          · exact Or.inl h
          · exact Or.inr (List.mem_cons_of_mem _ h)

theorem dkeys_dinsert_nodup {l : List (α × β)} {k : α} (v : β)
    (h : (dkeys l).Nodup) : (dkeys (dinsert l k v)).Nodup := by
  induction l with
  | nil => simp [dinsert, dkeys]
  | cons hd t ih =>
      obtain ⟨k₀, v₀⟩ := hd
      simp [dkeys] at h
      by_cases hk : k₀ = k
      · subst hk
        simpa [dinsert, dkeys] using h
      · have ht := ih h.2
        have hknotin : k₀ ∉ dkeys (dinsert t k v) := by
          intro hmem
          have : ∃ e ∈ dinsert t k v, e.1 = k₀ := by
            simpa [dkeys] using hmem
          obtain ⟨e, he, hek⟩ := this
          rcases mem_dinsert he with rfl | he'
          · exact hk hek.symm
          · exact h.1 e.2 (by simpa [hek] using (by simpa using he' : (e.1, e.2) ∈ t))
        simpa [dinsert, hk, dkeys] using ⟨by simpa [dkeys] using hknotin, by simpa [dkeys] using ht⟩

theorem derase_sublist (l : List (α × β)) (k : α) : List.Sublist (derase l k) l := by
  induction l with
  | nil => simp [derase]
  | cons hd t ih =>
      obtain ⟨k₀, v₀⟩ := hd
      by_cases hk : k₀ = k
      · simp only [derase, hk, if_pos]
        exact List.sublist_cons_self _ _
      · simp only [derase, hk, if_neg, not_false_iff]
        exact List.Sublist.cons₂ _ ih

theorem dkeys_derase_nodup {l : List (α × β)} (k : α)
    (h : (dkeys l).Nodup) : (dkeys (derase l k)).Nodup :=
  h.sublist (List.Sublist.map Prod.fst (derase_sublist l k))

theorem mem_derase {l : List (α × β)} {k : α} {e : α × β}
    (h : e ∈ derase l k) : e ∈ l :=
  (derase_sublist l k).mem h

/-! ## SHA-256

Embedding of `hashlib.sha256(s.encode()).hexdigest()` as used by
`create_room` (`main.py` line 57) and the websocket authentication
(`main.py` line 263): FIPS 180-4 SHA-256 over the UTF-8 bytes of the
string, rendered as a 64-character lowercase hex string.  32-bit machine
words are `Nat` reduced by `% 2^32`. -/

namespace Sha256

/-- Truncation to a 32-bit word. -/
def w32 (n : Nat) : Nat := n % 4294967296

/-- Right rotation of a 32-bit word. -/
def rotr (n x : Nat) : Nat := w32 ((x >>> n) ||| (x <<< (32 - n)))

/-- UTF-8 encoding of one Unicode code point. -/
def utf8Bytes (c : Nat) : List Nat :=
  if c < 128 then [c]
  else if c < 2048 then [192 + c / 64, 128 + c % 64]
  else if c < 65536 then [224 + c / 4096, 128 + (c / 64) % 64, 128 + c % 64]
  else [240 + c / 262144, 128 + (c / 4096) % 64, 128 + (c / 64) % 64, 128 + c % 64]

/-- Embedding of Python `s.encode()`: UTF-8 bytes of the string. -/
def strBytes (s : String) : List Nat :=
  (s.data.map (fun c => utf8Bytes c.toNat)).flatten

/-- Round constants K (FIPS 180-4 section 4.2.2), in decimal. -/
def K : List Nat :=
  [1116352408, 1899447441, 3049323471, 3921009573,
   961987163, 1508970993, 2453635748, 2870763221,
   3624381080, 310598401, 607225278, 1426881987,
   1925078388, 2162078206, 2614888103, 3248222580,
   3835390401, 4022224774, 264347078, 604807628,
   770255983, 1249150122, 1555081692, 1996064986,
   2554220882, 2821834349, 2952996808, 3210313671,
   3336571891, 3584528711, 113926993, 338241895,
   666307205, 773529912, 1294757372, 1396182291,
   1695183700, 1986661051, 2177026350, 2456956037,
   2730485921, 2820302411, 3259730800, 3345764771,
   3516065817, 3600352804, 4094571909, 275423344,
   430227734, 506948616, 659060556, 883997877,
   958139571, 1322822218, 1537002063, 1747873779,
   1955562222, 2024104815, 2227730452, 2361852424,
   2428436474, 2756734187, 3204031479, 3329325298]

/-- Initial hash value (FIPS 180-4 section 5.3.3), in decimal. -/
def H0 : List Nat :=
  [1779033703, 3144134277, 1013904242, 2773480762,
   1359893119, 2600822924, 528734635, 1541459225]

/-- Big-endian 8-byte encoding of the message bit length. -/
def lenBytes (n : Nat) : List Nat :=
  [(n >>> 56) % 256, (n >>> 48) % 256, (n >>> 40) % 256, (n >>> 32) % 256,
   (n >>> 24) % 256, (n >>> 16) % 256, (n >>> 8) % 256, n % 256]

/-- Padding: append 0x80, zero bytes to 56 mod 64, then the bit length. -/
def padMsg (bytes : List Nat) : List Nat :=
  let L := bytes.length
  let k := (119 - L % 64) % 64
  bytes ++ 128 :: List.replicate k 0 ++ lenBytes (8 * L)

/-- Group bytes into big-endian 32-bit words. -/
def bytesToWords : List Nat → List Nat
  | a :: b :: c :: d :: rest =>
      (a * 16777216 + b * 65536 + c * 256 + d) :: bytesToWords rest
  | _ => []

/-- Message-schedule extension; `w` holds the schedule so far, most
recent word first. -/
def extendW : Nat → List Nat → List Nat
  | 0, w => w
  | n + 1, w =>
      let s0 :=
        rotr 7 (w.getD 14 0) ^^^ rotr 18 (w.getD 14 0) ^^^ (w.getD 14 0 >>> 3)
      let s1 :=
        rotr 17 (w.getD 1 0) ^^^ rotr 19 (w.getD 1 0) ^^^ (w.getD 1 0 >>> 10)
      extendW n (w32 (s1 + w.getD 6 0 + s0 + w.getD 15 0) :: w)

/-- One compression round; the state is the list `[a, b, c, d, e, f, g, h]`
and `kw` is `K[i] + W[i]` truncated. -/
def sha_round (st : List Nat) (kw : Nat) : List Nat :=
  match st with
  | [a, b, c, d, e, f, g, h] =>
      let S1 := rotr 6 e ^^^ rotr 11 e ^^^ rotr 25 e
      let ch := (e &&& f) ^^^ ((e ^^^ 4294967295) &&& g)
      let t1 := w32 (h + S1 + ch + kw)
      let S0 := rotr 2 a ^^^ rotr 13 a ^^^ rotr 22 a
      let maj := (a &&& b) ^^^ (a &&& c) ^^^ (b &&& c)
      let t2 := w32 (S0 + maj)
      [w32 (t1 + t2), a, b, c, w32 (d + t1), e, f, g]
  | _ => st

/-- Compression of one 64-byte block into the running hash. -/
def compress (hs : List Nat) (block : List Nat) : List Nat :=
  let w16 := bytesToWords block
  let w := (extendW 48 w16.reverse).reverse
  let kw := (K.zip w).map (fun p => w32 (p.1 + p.2))
  let st := kw.foldl sha_round hs
  (hs.zip st).map (fun p => w32 (p.1 + p.2))

/-- Process `fuel` consecutive 64-byte blocks. -/
def processBlocks : Nat → List Nat → List Nat → List Nat
  | 0, _, hs => hs
  | fuel + 1, bytes, hs => processBlocks fuel (bytes.drop 64) (compress hs (bytes.take 64))

/-- SHA-256 digest of a byte list, as eight 32-bit words. -/
def sha256Words (bytes : List Nat) : List Nat :=
  let padded := padMsg bytes
  processBlocks (padded.length / 64) padded H0

/-- Lowercase hex digit. -/
def hexChar (n : Nat) : Char := "0123456789abcdef".data.getD n '0'

/-- Eight hex characters of one 32-bit word, most significant first. -/
def wordHex (w : Nat) : List Char :=
  [hexChar ((w >>> 28) % 16), hexChar ((w >>> 24) % 16), hexChar ((w >>> 20) % 16),
   hexChar ((w >>> 16) % 16), hexChar ((w >>> 12) % 16), hexChar ((w >>> 8) % 16),
   hexChar ((w >>> 4) % 16), hexChar (w % 16)]

end Sha256

/-- Embedding of `hashlib.sha256(s.encode()).hexdigest()`. -/
def sha256hex (s : String) : String :=
  ⟨((Sha256.sha256Words (Sha256.strBytes s)).map Sha256.wordHex).flatten⟩

/-! ## Data model

Embedding of the durable `Room` table (`main.py` lines 20-25) and of the
in-memory state of `ConnectionManager` (`main.py` lines 74-79).
Timestamps are integers (`datetime.timestamp()` values); websocket
handles are opaque `Nat` identifiers. -/

/-- Durable room record (`class Room`, `main.py` lines 20-25).
`last_activity` is optional because the column is nullable; the code
reads it with an `or 0` fallback (`main.py` line 148). -/
structure RoomRec where
  id : Nat
  name : String
  pwd_hash : Option String
  last_activity : Option Int
deriving DecidableEq, Repr

/-- One member entry `{"name": str, "ws": WebSocket}` (`main.py` line 76). -/
structure Peer where
  name : String
  ws : Nat
deriving DecidableEq, Repr

/-- One element of a `room_state` payload: `{"id": pid, "name": ...}`
(`main.py` line 90). -/
structure PeerInfo where
  id : String
  name : String
deriving DecidableEq, Repr

/-- Inbound steady-state frame as read by `ws.receive_json()`
(`main.py` lines 282-296): the fields the relay loop inspects, plus an
opaque rest of the JSON object. -/
structure InMsg where
  type : Option String
  to_id : Option String
  rest : String
deriving DecidableEq, Repr

/-- Outbound frame passed to `send_json` (`main.py`). `relayed` is the
inbound dict forwarded verbatim with `from_id` added (`main.py`
lines 294-296). -/
inductive OutMsg where
  | roomState (payload : List PeerInfo)
  | newPeer (id name : String)
  | peerLeft (id : String)
  | relayed (data : InMsg) (from_id : String)
  | roomsUpdated (event : String)
deriving DecidableEq, Repr

/-- One delivered frame: target websocket handle and message. -/
abbrev Send := Nat × OutMsg

/-- In-memory state of `ConnectionManager` (`main.py` lines 75-79):
`rooms : {room_id: {peer_id: {"name", "ws"}}}` and
`main_menu_users : {peer_id: {"name", "ws"}}`. -/
structure CM where
  rooms : List (Nat × List (String × Peer))
  main_menu_users : List (String × Peer)
deriving DecidableEq, Repr

/-- The manager state at process start (`manager = ConnectionManager()`,
`main.py` line 209). -/
def CM.init : CM := ⟨[], []⟩

/-- Members of a room, `self.rooms[room_id]` with empty fallback. -/
def roomMembers (cm : CM) (room_id : Nat) : List (String × Peer) :=
  (dlookup cm.rooms room_id).getD []

/-- Live member count of a room as seen by the registry
(spec §4.1 `room_member_count`): number of entries under the room key,
`0` when the key is absent. -/
def room_member_count (cm : CM) (room_id : Nat) : Nat :=
  (roomMembers cm room_id).length

/-! ## ConnectionManager operations -/

/-- Embedding of `ConnectionManager.broadcast` (`main.py` lines 112-118).
`bad` is the set of websocket handles whose `send_json` raises.  All
sends are handed to `asyncio.gather`, so every non-excluded recipient
whose transport works receives the message (first component); the second
component is `false` when some send raised, in which case `gather`
re-raises the exception into the caller of `broadcast` (there is no
`return_exceptions=True` and no `try`/`except` here).  The function does
not touch `self.rooms`: no recipient is unregistered. -/
def broadcast (cm : CM) (room_id : Nat) (message : OutMsg)
    (exclude_id : Option String) (bad : List Nat) : List Send × Bool :=
  match dlookup cm.rooms room_id with
  | none => ([], true)
  | some members =>
      let recips := members.filter (fun pd => decide (some pd.1 ≠ exclude_id))
      ((recips.filter (fun pd => !(bad.contains pd.2.ws))).map (fun pd => (pd.2.ws, message)),
       recips.all (fun pd => !(bad.contains pd.2.ws)))

/-- Embedding of `ConnectionManager.update_room_activity`
(`main.py` lines 120-130): set `last_activity` of the room row, if the
row exists. -/
def update_room_activity (db : List RoomRec) (room_id : Nat) (now : Int) :
    List RoomRec :=
  db.map (fun r => if r.id = room_id then { r with last_activity := some now } else r)

/-- Registry part of `ConnectionManager.connect` (`main.py` lines 83-84
and 97): ensure the room key, then `self.rooms[room_id][peer_id] =
{"name": name, "ws": ws}`.  There is no duplicate-`peer_id` check: an
existing entry under the same key is replaced. -/
def connectRooms (rooms : List (Nat × List (String × Peer))) (room_id : Nat)
    (peer_id : String) (p : Peer) : List (Nat × List (String × Peer)) :=
  let rooms1 := if (dlookup rooms room_id).isSome then rooms else dinsert rooms room_id []
  let members := (dlookup rooms1 room_id).getD []
  dinsert rooms1 room_id (dinsert members peer_id p)

/-- Embedding of `ConnectionManager.connect` (`main.py` lines 81-97),
assuming all sends succeed: accept, ensure the room key, update the
room's activity in the database, send `room_state` (the members present
before the join) to the new websocket, broadcast `new_peer` to everyone
except `peer_id`, then insert the new entry (overwriting any existing
entry with the same `peer_id`). -/
def connect (db : List RoomRec) (cm : CM) (room_id : Nat) (peer_id name : String)
    (ws : Nat) (now : Int) : List RoomRec × CM × List Send :=
  let rooms1 := if (dlookup cm.rooms room_id).isSome then cm.rooms
                else dinsert cm.rooms room_id []
  let db1 := update_room_activity db room_id now
  let members := (dlookup rooms1 room_id).getD []
  let existing_peers := members.map (fun pd => PeerInfo.mk pd.1 pd.2.name)
  let bsends := (broadcast { cm with rooms := rooms1 } room_id
      (.newPeer peer_id name) (some peer_id) []).1
  let rooms2 := dinsert rooms1 room_id (dinsert members peer_id ⟨name, ws⟩)
  (db1, { cm with rooms := rooms2 }, (ws, .roomState existing_peers) :: bsends)

/-- Embedding of `ConnectionManager.disconnect` (`main.py` lines 99-106):
if the peer is registered, delete it; drop the room key when the room
becomes empty, otherwise broadcast `peer_left` to the remaining members. -/
def disconnect (cm : CM) (room_id : Nat) (peer_id : String) : CM × List Send :=
  match dlookup cm.rooms room_id with
  | none => (cm, [])
  | some members =>
      if (dlookup members peer_id).isSome then
        let members1 := derase members peer_id
        if members1 = [] then
          ({ cm with rooms := derase cm.rooms room_id }, [])
        else
          let cm1 : CM := { cm with rooms := dinsert cm.rooms room_id members1 }
          (cm1, (broadcast cm1 room_id (.peerLeft peer_id) none []).1)
      else (cm, [])

/-- Embedding of `ConnectionManager.send_to_peer` (`main.py`
lines 108-110): deliver to the one registered peer, silently do nothing
when the room or the peer is absent. -/
def send_to_peer (cm : CM) (room_id : Nat) (peer_id : String) (message : OutMsg) :
    List Send :=
  match dlookup cm.rooms room_id with
  | none => []
  | some members =>
      match dlookup members peer_id with
      | none => []
      | some p => [(p.ws, message)]

/-- Embedding of `ConnectionManager.add_main_menu_user`
(`main.py` lines 171-174). -/
def add_main_menu_user (cm : CM) (peer_id name : String) (ws : Nat) : CM :=
  { cm with main_menu_users := dinsert cm.main_menu_users peer_id ⟨name, ws⟩ }

/-- Embedding of `ConnectionManager.remove_main_menu_user`
(`main.py` lines 176-181). -/
def remove_main_menu_user (cm : CM) (peer_id : String) : CM :=
  { cm with main_menu_users := derase cm.main_menu_users peer_id }

/-- Sends produced by `notify_main_menu_users_room_list_changed`
(`main.py` lines 183-207) when every lobby transport works: one
`rooms_updated` frame per main-menu user. -/
def lobby_notify_sends (cm : CM) (event : String) : List Send :=
  cm.main_menu_users.map (fun pu => (pu.2.ws, OutMsg.roomsUpdated event))

/-- Deletion test of one reclamation cycle for one durable room record
(`main.py` lines 142-153): `has_users = room.id in self.rooms and
len(self.rooms[room.id]) > 0`; an empty room is deleted when
`(room.last_activity.timestamp() if room.last_activity else 0) <
now - timeout`. -/
def room_deleted (rooms : List (Nat × List (String × Peer))) (now timeout : Int)
    (r : RoomRec) : Bool :=
  let has_users :=
    match dlookup rooms r.id with
    | some members => decide (members.length > 0)
    | none => false
  if has_users then false
  else
    let last_activity_timestamp := r.last_activity.getD 0
    decide (last_activity_timestamp < now - timeout)

/-- Embedding of `ConnectionManager.cleanup_empty_rooms`
(`main.py` lines 132-169) on the success path: delete every durable room
record that is empty and stale, drop the deleted ids from the in-memory
map, and, when at least one record was deleted, notify the main-menu
users. -/
def cleanup_empty_rooms (db : List RoomRec) (cm : CM) (now timeout : Int) :
    List RoomRec × CM × List Send :=
  let deleted := db.filter (room_deleted cm.rooms now timeout)
  let db1 := db.filter (fun r => !(room_deleted cm.rooms now timeout r))
  let rooms1 := deleted.foldl (fun acc r => derase acc r.id) cm.rooms
  let sends := if deleted.isEmpty then [] else lobby_notify_sends cm "room_deleted"
  (db1, { cm with rooms := rooms1 }, sends)

/-! ## REST and database boundary -/

/-- Embedding of `db.get(Room, room_id)`: lookup by primary key. -/
def dbGet (db : List RoomRec) (room_id : Nat) : Option RoomRec :=
  db.find? (fun r => r.id == room_id)

/-- Embedding of the `create_room` REST handler (`main.py` lines 53-65):
reject a duplicate name, hash the password with SHA-256 when it is a
non-empty string (`if payload.password` — `None` and `""` are falsy),
and append the new record. -/
def create_room (db : List RoomRec) (next_id : Nat) (name : String)
    (password : Option String) (now : Int) : Except Unit (List RoomRec × RoomRec) :=
  if db.any (fun r => r.name == name) then .error ()
  else
    let pwd_hash :=
      match password with
      | some p => if p = "" then none else some (sha256hex p)
      | none => none
    let room : RoomRec := ⟨next_id, name, pwd_hash, some now⟩
    .ok (db ++ [room], room)

/-! ## Signaling websocket endpoint (`main.py` lines 247-299) -/

/-- Result of the connection phase of `websocket_endpoint`: either the
socket was accepted and closed with a code before any registration, or
the session reached the joined state. -/
inductive ConnPhase where
  | closed (code : Nat) (cm : CM) (db : List RoomRec)
  | joined (cm : CM) (db : List RoomRec) (sends : List Send)
deriving DecidableEq, Repr

/-- Embedding of the room-lookup / password-authentication prefix of
`websocket_endpoint` (`main.py` lines 248-277).  `password` is the
`password` query parameter with its `''` default (line 262).  A missing
room closes with 4004; when `room.pwd_hash` is truthy (a non-`None`,
non-empty string) and the SHA-256 hex digest of the supplied password
differs from it, the socket closes with 4000 before
`manager.connect` runs; otherwise the peer is connected.  (The
`except` branch closing with 4001 is unreachable: hashing a string
cannot raise.) -/
def websocket_connect_phase (db : List RoomRec) (cm : CM) (room_id : Nat)
    (peer_id user_name password : String) (ws : Nat) (now : Int) : ConnPhase :=
  match dbGet db room_id with
  | none => .closed 4004 cm db
  | some room =>
      let proceed : ConnPhase :=
        let (db1, cm1, sends) := connect db cm room_id peer_id user_name ws now
        .joined cm1 db1 sends
      match room.pwd_hash with
      | none => proceed
      | some h =>
          if h = "" then proceed
          else if sha256hex password = h then proceed
          else .closed 4000 cm db

/-- Embedding of one iteration of the steady-state relay loop of
`websocket_endpoint` (`main.py` lines 282-296): a `refresh_users` frame
is answered with the current `room_state`; otherwise, when the frame
carries a truthy `to_id` (a non-`None`, non-empty string), it is
forwarded verbatim to that peer with `from_id` set to the sender's id —
whatever its `type` — and dropped otherwise.  The registry state is
never modified and the session stays in its loop. -/
def handle_message (cm : CM) (room_id : Nat) (peer_id : String) (ws : Nat)
    (data : InMsg) : List Send :=
  if data.type = some "refresh_users" then
    [(ws, .roomState ((roomMembers cm room_id).map (fun pd => PeerInfo.mk pd.1 pd.2.name)))]
  else
    match data.to_id with
    | none => []
    | some to_id =>
        if to_id = "" then []
        else send_to_peer cm room_id to_id (.relayed data peer_id)

/-- Embedding of the `WebSocketDisconnect` handler of
`websocket_endpoint` (`main.py` lines 298-299): the session end calls
only `manager.disconnect`; the durable store is not touched. -/
def session_disconnect (db : List RoomRec) (cm : CM) (room_id : Nat)
    (peer_id : String) : List RoomRec × CM × List Send :=
  let (cm1, sends) := disconnect cm room_id peer_id
  (db, cm1, sends)

/-! ## Startup schema migration (`main.py` lines 27-28) -/

/-- The database as a schema: table name to rows.  Only the `rooms`
table is declared on `Base.metadata`. -/
abbrev Schema := List (String × List RoomRec)

/-- Embedding of `Base.metadata.drop_all(bind=engine)`: every table
known to the metadata (here, `rooms`) is dropped. -/
def metadata_drop_all (s : Schema) : Schema :=
  s.filter (fun t => !(t.1 == "rooms"))

/-- Embedding of `Base.metadata.create_all(bind=engine)`: create each
missing metadata table, empty. -/
def metadata_create_all (s : Schema) : Schema :=
  if s.any (fun t => t.1 == "rooms") then s else s ++ [("rooms", [])]

/-- Module-level statements run at import, before the app serves
(`main.py` lines 27-28): `drop_all` then `create_all`. -/
def startup_migration (s : Schema) : Schema :=
  metadata_create_all (metadata_drop_all s)

/-! ## Reachable registry states

States of the `ConnectionManager` reachable from the initial state
through the four membership-mutating operations of the public surface:
joining a room (`connect`), leaving it (`disconnect`), entering the
main menu (`add_main_menu_user`) and leaving it
(`remove_main_menu_user`). -/

/-- Registry part of `connect` as one `CM` step. -/
def connectCM (cm : CM) (room_id : Nat) (peer_id : String) (p : Peer) : CM :=
  { cm with rooms := connectRooms cm.rooms room_id peer_id p }

inductive Reachable : CM → Prop
  | init : Reachable CM.init
  | join (cm : CM) (room_id : Nat) (peer_id : String) (p : Peer) :
      Reachable cm → Reachable (connectCM cm room_id peer_id p)
  | leave (cm : CM) (room_id : Nat) (peer_id : String) :
      Reachable cm → Reachable (disconnect cm room_id peer_id).1
  | lobby_join (cm : CM) (peer_id name : String) (ws : Nat) :
      Reachable cm → Reachable (add_main_menu_user cm peer_id name ws)
  | lobby_leave (cm : CM) (peer_id : String) :
      Reachable cm → Reachable (remove_main_menu_user cm peer_id)

/-! ## Further dictionary lemmas -/

theorem dlookup_dinsert_ne {l : List (α × β)} {k q : α} (v : β) (h : q ≠ k) :
    dlookup (dinsert l k v) q = dlookup l q := by
  have hkq : ¬ k = q := fun hh => h hh.symm
  induction l with
  | nil => simp [dinsert, dlookup, hkq]
  | cons hd t ih =>
      obtain ⟨k₀, v₀⟩ := hd
      by_cases hk : k₀ = k
      · subst hk
        simp [dinsert, dlookup, hkq]
      · by_cases hq : k₀ = q
        · simp [dinsert, dlookup, hk, hq, hkq, h]
        · simp [dinsert, dlookup, hk, hq, ih]

theorem dlookup_eq_none_of_not_mem_keys {l : List (α × β)} {k : α}
    (h : k ∉ dkeys l) : dlookup l k = none := by
  induction l with
  | nil => rfl
  | cons hd t ih =>
      obtain ⟨k₀, v₀⟩ := hd
      rw [show dkeys ((k₀, v₀) :: t) = k₀ :: dkeys t from rfl, List.mem_cons] at h
      push_neg at h
      have hne : ¬ k₀ = k := fun hh => h.1 hh.symm
      simp [dlookup, hne, ih h.2]

theorem dlookup_derase_self {l : List (α × β)} (k : α)
    (h : (dkeys l).Nodup) : dlookup (derase l k) k = none := by
  induction l with
  | nil => rfl
  | cons hd t ih =>
      obtain ⟨k₀, v₀⟩ := hd
      simp [dkeys] at h
      by_cases hk : k₀ = k
      · subst hk
        simp only [derase, if_pos rfl]
        exact dlookup_eq_none_of_not_mem_keys (by
          intro hmem
          obtain ⟨e, he, hek⟩ : ∃ e ∈ t, e.1 = k₀ := by simpa [dkeys] using hmem
          exact h.1 e.2 (by simpa [hek] using (by simpa using he : (e.1, e.2) ∈ t)))
      · simp [derase, hk, dlookup, ih h.2]

theorem dlookup_append_of_keys_ne {l : List (α × β)} {k : α} (v : β)
    (h : ∀ e ∈ l, e.1 ≠ k) : dlookup (l ++ [(k, v)]) k = some v := by
  induction l with
  | nil => simp [dlookup]
  | cons hd t ih =>
      obtain ⟨k₀, v₀⟩ := hd
      have hk : k₀ ≠ k := h (k₀, v₀) (List.mem_cons_self _ _)
      simp only [List.cons_append, dlookup, if_neg hk]
      exact ih (fun e he => h e (List.mem_cons_of_mem _ he))

/-! ## Broadcast delivery lemmas -/

theorem broadcast_no_exclude (cm : CM) (rid : Nat) (msg : OutMsg)
    (members : List (String × Peer)) (h : dlookup cm.rooms rid = some members) :
    broadcast cm rid msg none [] = (members.map (fun pd => (pd.2.ws, msg)), true) := by
  unfold broadcast
  rw [h]
  simp

theorem broadcast_exclude_not_mem (cm : CM) (rid : Nat) (msg : OutMsg) (pid : String)
    (members : List (String × Peer)) (h : dlookup cm.rooms rid = some members)
    (hpid : pid ∉ dkeys members) :
    broadcast cm rid msg (some pid) [] = (members.map (fun pd => (pd.2.ws, msg)), true) := by
  unfold broadcast
  rw [h]
  have hf : members.filter (fun a => !decide (a.1 = pid)) = members := by
    apply List.filter_eq_self.mpr
    intro a ha
    have hne : a.1 ≠ pid := fun hh => hpid (hh ▸ List.mem_map_of_mem Prod.fst ha)
    simp [hne]
  simp [hf]

/-! ## C10: startup destroys all persisted rooms -/

/-- C10.  On process startup, `main.py` runs `Base.metadata.drop_all`
followed by `Base.metadata.create_all` (lines 27-28) before the app
serves: whatever the prior database contents, afterwards the `rooms`
table exists and is empty, so no persisted room survives a restart. -/
theorem startup_drops_all_rooms (s : Schema) :
    dlookup (startup_migration s) "rooms" = some [] := by
  unfold startup_migration metadata_create_all metadata_drop_all
  have hmem : ∀ e ∈ s.filter (fun t => !(t.1 == "rooms")), e.1 ≠ "rooms" := by
    intro e he
    have := List.of_mem_filter he
    simpa using this
  have hany : (s.filter (fun t => !(t.1 == "rooms"))).any (fun t => t.1 == "rooms") = false := by
    rw [List.any_eq_false]
    intro e he
    simpa using hmem e he
  rw [if_neg (by simp [hany])]
  exact dlookup_append_of_keys_ne _ hmem

/-! ## C4: reclamation deletes exactly the empty, stale rooms -/

/-- C4.  A reclamation cycle (`cleanup_empty_rooms`, `main.py`
lines 132-169) deletes a durable room record iff the registry holds no
live member for it and `now - last_activity > timeout`; in particular a
room with at least one live member survives regardless of
`last_activity`. -/
theorem cleanup_deletes_iff_empty_and_stale
    (db : List RoomRec) (cm : CM) (now timeout : Int) (r : RoomRec) (la : Int)
    (hr : r ∈ db) (hla : r.last_activity = some la) :
    (r ∉ (cleanup_empty_rooms db cm now timeout).1 ↔
      room_member_count cm r.id = 0 ∧ now - la > timeout)
    ∧ (room_member_count cm r.id > 0 → r ∈ (cleanup_empty_rooms db cm now timeout).1) := by
  have hdel : room_deleted cm.rooms now timeout r = true ↔
      room_member_count cm r.id = 0 ∧ now - la > timeout := by
    rcases hlk : dlookup cm.rooms r.id with _ | members
    · unfold room_deleted room_member_count roomMembers
      simp [hlk, hla]
      omega
    · rcases Nat.eq_zero_or_pos members.length with h0 | hpos
      · have hm : members = [] := List.length_eq_zero.mp h0
        subst hm
        unfold room_deleted room_member_count roomMembers
        simp [hlk, hla]
        omega
      · unfold room_deleted room_member_count roomMembers
        simp [hlk, hla, hpos]
        intro h
        rw [h] at hpos
        simp at hpos
  have hfilter : r ∈ (cleanup_empty_rooms db cm now timeout).1 ↔
      ¬ room_deleted cm.rooms now timeout r = true := by
    unfold cleanup_empty_rooms
    simp only [List.mem_filter]
    constructor
    · rintro ⟨-, hb⟩
      simpa using hb
    · intro hb
      exact ⟨hr, by simpa using hb⟩
  constructor
  · rw [hfilter]
    simp only [not_not]
    exact hdel
  · intro hcount
    rw [hfilter, hdel]
    rintro ⟨h0, -⟩
    omega

/-- Witness for C4 at concrete inputs: a stale empty room (id 1,
last activity 0, now 400, timeout 300) is deleted, and a room with one
live member (id 2) survives with the same staleness. -/
theorem cleanup_deletes_iff_empty_and_stale_witness :
    let cmw : CM := ⟨[(2, [("p", ⟨"A", 5⟩)])], []⟩
    let r1 : RoomRec := ⟨1, "a", none, some 0⟩
    let r2 : RoomRec := ⟨2, "b", none, some 0⟩
    r1 ∉ (cleanup_empty_rooms [r1, r2] cmw 400 300).1
    ∧ r2 ∈ (cleanup_empty_rooms [r1, r2] cmw 400 300).1 := by
  intro cmw r1 r2
  constructor
  · exact (cleanup_deletes_iff_empty_and_stale [r1, r2] cmw 400 300 r1 0
      (by decide) (by decide)).1.mpr ⟨by decide, by decide⟩
  · exact (cleanup_deletes_iff_empty_and_stale [r1, r2] cmw 400 300 r2 0
      (by decide) (by decide)).2 (by decide)

/-! ## C7: leave drops the room key when last, notifies when not -/

/-- C7.  `disconnect` (`main.py` lines 99-106), as invoked by the
`WebSocketDisconnect` handler (`session_disconnect`): when the leaver is
the only member, the room key is dropped from the live registry (so a
subsequent `room_member_count` is 0) and the durable store is returned
untouched; when other members remain, every one of them is sent a
`peer_left` frame. -/
theorem leave_removes_room_or_notifies
    (db : List RoomRec) (cm : CM) (rid : Nat) (pid : String) :
    (∀ p, dlookup cm.rooms rid = some [(pid, p)] → (dkeys cm.rooms).Nodup →
        session_disconnect db cm rid pid =
          (db, { cm with rooms := derase cm.rooms rid }, [])
        ∧ room_member_count { cm with rooms := derase cm.rooms rid } rid = 0)
    ∧ (∀ members p, dlookup cm.rooms rid = some members →
        dlookup members pid = some p → derase members pid ≠ [] →
        session_disconnect db cm rid pid =
          (db, { cm with rooms := dinsert cm.rooms rid (derase members pid) },
           (derase members pid).map (fun pd => (pd.2.ws, OutMsg.peerLeft pid)))) := by
  constructor
  · intro p h hnd
    have hone : session_disconnect db cm rid pid =
        (db, { cm with rooms := derase cm.rooms rid }, []) := by
      unfold session_disconnect disconnect
      rw [h]
      simp [dlookup, derase]
    refine ⟨hone, ?_⟩
    unfold room_member_count roomMembers
    rw [show ({ cm with rooms := derase cm.rooms rid } : CM).rooms
          = derase cm.rooms rid from rfl, dlookup_derase_self rid hnd]
    rfl
  · intro members p h hp hne
    unfold session_disconnect disconnect
    rw [h]
    simp only [hp, Option.isSome_some, if_true, if_neg hne]
    rw [broadcast_no_exclude ⟨dinsert cm.rooms rid (derase members pid), cm.main_menu_users⟩
      rid (OutMsg.peerLeft pid) (derase members pid)
      (dlookup_dinsert_self cm.rooms rid (derase members pid))]

/-- Witness for C7 at concrete inputs: in a one-member room the key is
removed and the count drops to 0 with the durable store untouched; in a
two-member room the remaining member receives `peer_left`. -/
theorem leave_removes_room_or_notifies_witness :
    let db0 : List RoomRec := [⟨1, "a", none, some 0⟩]
    let cmSolo : CM := ⟨[(1, [("p", ⟨"A", 3⟩)])], []⟩
    let cmDuo : CM := ⟨[(1, [("p", ⟨"A", 3⟩), ("q", ⟨"B", 4⟩)])], []⟩
    session_disconnect db0 cmSolo 1 "p" = (db0, ⟨[], []⟩, [])
    ∧ room_member_count (⟨[], []⟩ : CM) 1 = 0
    ∧ session_disconnect db0 cmDuo 1 "p" =
        (db0, ⟨[(1, [("q", ⟨"B", 4⟩)])], []⟩, [(4, OutMsg.peerLeft "p")]) := by
  intro db0 cmSolo cmDuo
  have h1 := (leave_removes_room_or_notifies db0 cmSolo 1 "p").1 ⟨"A", 3⟩
    (by decide) (by decide)
  have h2 := (leave_removes_room_or_notifies db0 cmDuo 1 "p").2
    [("p", ⟨"A", 3⟩), ("q", ⟨"B", 4⟩)] ⟨"A", 3⟩ (by decide) (by decide) (by decide)
  exact ⟨h1.1, h1.2, h2⟩

/-! ## C6: directed relay goes only to the target, stamped `from_id` -/

/-- C6.  A steady-state `sdp`/`ice` frame with target `to_id = X`
(`main.py` lines 291-296, `send_to_peer` lines 108-110) is forwarded,
stamped with the sender's id as `from_id`, to the websocket of the
entry under `X` in the same room and to nobody else; when `X` is not
registered in the room the frame is dropped silently (no send at all,
nothing surfaced to the sender). -/
theorem directed_relay_only_target
    (cm : CM) (rid : Nat) (pid : String) (ws : Nat) (data : InMsg) (X : String)
    (hty : data.type = some "sdp" ∨ data.type = some "ice")
    (hto : data.to_id = some X) (hX : X ≠ "") :
    (∀ p, dlookup (roomMembers cm rid) X = some p →
        handle_message cm rid pid ws data = [(p.ws, OutMsg.relayed data pid)])
    ∧ (dlookup (roomMembers cm rid) X = none →
        handle_message cm rid pid ws data = []) := by
  have hrefresh : ¬ data.type = some "refresh_users" := by
    rcases hty with h | h <;> simp [h]
  have hmsg : handle_message cm rid pid ws data =
      send_to_peer cm rid X (OutMsg.relayed data pid) := by
    unfold handle_message
    rw [if_neg hrefresh, hto]
    simp [hX]
  rw [hmsg]
  unfold send_to_peer roomMembers
  cases hlk : dlookup cm.rooms rid with
  | none => simp [hlk]
  | some members =>
      simp only [Option.getD_some]
      constructor
      · intro p hp
        rw [hp]
      · intro hp
        rw [hp]

/-- Witness for C6 at concrete inputs: a room with members `p1`, `p2`;
an `sdp` frame from `p1` to `p2` reaches exactly `p2`'s websocket with
`from_id = p1`, and the same frame addressed to an absent `p3` produces
no send. -/
theorem directed_relay_only_target_witness :
    let cmw : CM := ⟨[(1, [("p1", ⟨"A", 3⟩), ("p2", ⟨"B", 4⟩)])], []⟩
    let m1 : InMsg := ⟨some "sdp", some "p2", "offer"⟩
    let m2 : InMsg := ⟨some "sdp", some "p3", "offer"⟩
    handle_message cmw 1 "p1" 3 m1 = [(4, OutMsg.relayed m1 "p1")]
    ∧ handle_message cmw 1 "p1" 3 m2 = [] := by
  intro cmw m1 m2
  constructor
  · exact (directed_relay_only_target cmw 1 "p1" 3 m1 "p2" (Or.inl rfl) rfl
      (by decide)).1 ⟨"B", 4⟩ (by decide)
  · exact (directed_relay_only_target cmw 1 "p1" 3 m2 "p3" (Or.inl rfl) rfl
      (by decide)).2 (by decide)

/-! ## C3: password authentication -/

/-- C3.  For a room whose stored hash is a non-empty `pwd_hash = h`
(as produced by `create_room`), the websocket endpoint
(`main.py` lines 258-277) closes the socket with code 4000 — before
`manager.connect` runs, leaving the registry exactly as it was — iff
the SHA-256 hex digest of the supplied password differs from `h`, and
joins the room iff the digest equals `h`. -/
theorem auth_succeeds_iff_digest_matches
    (db : List RoomRec) (cm : CM) (rid : Nat) (pid uname password : String)
    (ws : Nat) (now : Int) (room : RoomRec) (hstored : String)
    (hget : dbGet db rid = some room) (hh : room.pwd_hash = some hstored)
    (hne : hstored ≠ "") :
    (sha256hex password ≠ hstored →
      websocket_connect_phase db cm rid pid uname password ws now =
        ConnPhase.closed 4000 cm db)
    ∧ (sha256hex password = hstored →
      websocket_connect_phase db cm rid pid uname password ws now =
        ConnPhase.joined (connect db cm rid pid uname ws now).2.1
          (connect db cm rid pid uname ws now).1
          (connect db cm rid pid uname ws now).2.2) := by
  constructor
  · intro hmis
    unfold websocket_connect_phase
    rw [hget]
    simp [hh, hne, hmis]
  · intro hmatch
    unfold websocket_connect_phase
    rw [hget]
    simp [hh, hne, hmatch]

/-- Durable store holding room `"B"` (id 1) created with password
`"secret"`, stored as its SHA-256 digest. -/
def dbB : List RoomRec := [⟨1, "B", some (sha256hex "secret"), some 0⟩]

/-- Witness for C3 at concrete inputs: connecting to room `"B"` with
password `"wrong"` closes with code 4000 and the registry (hence the
room's member count) is the untouched initial one. -/
theorem auth_succeeds_iff_digest_matches_witness :
    websocket_connect_phase dbB CM.init 1 "px" "N" "wrong" 7 0 =
      ConnPhase.closed 4000 CM.init dbB :=
  (auth_succeeds_iff_digest_matches dbB CM.init 1 "px" "N" "wrong" 7 0
      ⟨1, "B", some (sha256hex "secret"), some 0⟩ (sha256hex "secret")
      rfl rfl (by decide)).1 (by decide)

/-! ## C1: joining with a duplicate peer id -/

/-- Registry with room 1 already holding peer id `"p"` (display name
`"Alice"`, websocket handle 1). -/
def cmDup : CM := ⟨[(1, [("p", ⟨"Alice", 1⟩)])], []⟩

/-- Counterexample to C1.  `connect` (`main.py` lines 81-97) has no
duplicate check: joining room 1 of `cmDup` again under the taken id
`"p"` does not fail — `connect` is total, there is no `DuplicatePeer`
outcome in its type — and the existing entry `("Alice", ws 1)` is
overwritten by `("Bob", ws 2)` rather than left unchanged. -/
theorem join_duplicate_overwrites_counterexample :
    dlookup (roomMembers (connect [] cmDup 1 "p" "Bob" 2 0).2.1 1) "p"
      = some ⟨"Bob", 2⟩
    ∧ (some (⟨"Bob", 2⟩ : Peer) ≠ some (⟨"Alice", 1⟩ : Peer)) := by
  decide

/-- C1, amended.  A join whose `peer_id` is already present in the room
does not fail: it succeeds and replaces the existing member's entry
(display name and websocket handle) with the new ones, leaving every
other member's entry unchanged. -/
theorem join_duplicate_overwrites
    (db : List RoomRec) (cm : CM) (rid : Nat) (pid name : String) (ws : Nat)
    (now : Int) (p₀ : Peer) (hdup : dlookup (roomMembers cm rid) pid = some p₀) :
    dlookup (roomMembers (connect db cm rid pid name ws now).2.1 rid) pid
      = some ⟨name, ws⟩
    ∧ ∀ q, q ≠ pid →
        dlookup (roomMembers (connect db cm rid pid name ws now).2.1 rid) q
          = dlookup (roomMembers cm rid) q := by
  have hsome : (dlookup cm.rooms rid).isSome = true := by
    cases hlk : dlookup cm.rooms rid with
    | none =>
        rw [show roomMembers cm rid = [] by unfold roomMembers; rw [hlk]; rfl] at hdup
        simp [dlookup] at hdup
    | some members => rfl
  obtain ⟨members, hlk⟩ := Option.isSome_iff_exists.mp hsome
  have hmem : roomMembers cm rid = members := by unfold roomMembers; rw [hlk]; rfl
  have hafter : roomMembers (connect db cm rid pid name ws now).2.1 rid
      = dinsert members pid ⟨name, ws⟩ := by
    unfold connect roomMembers
    simp only [hlk, Option.isSome_some, if_true, Option.getD_some]
    rw [dlookup_dinsert_self]
    rfl
  constructor
  · rw [hafter, dlookup_dinsert_self]
  · intro q hq
    rw [hafter, hmem, dlookup_dinsert_ne _ hq]

/-- Witness for C1's amended theorem at `cmDup`: re-joining as `"p"`
stores the new name and handle. -/
theorem join_duplicate_overwrites_witness :
    dlookup (roomMembers (connect [] cmDup 1 "p" "Carol" 9 0).2.1 1) "p"
      = some ⟨"Carol", 9⟩ :=
  (join_duplicate_overwrites [] cmDup 1 "p" "Carol" 9 0 ⟨"Alice", 1⟩ (by decide)).1

/-! ## C2: what a join delivers -/

/-- Counterexample to C2.  When the joining `peer_id` is already a
member (see C1), the `room_state` frame sent to the joiner (`main.py`
lines 90-91) is the full pre-join member list, which then contains the
joiner's own id — it is not excluded as the claim requires for every
join. -/
theorem join_deliveries_counterexample :
    (connect [] cmDup 1 "p" "Bob" 2 0).2.2.head?
      = some (2, OutMsg.roomState [⟨"p", "Alice"⟩])
    ∧ ("p" ∈ ([⟨"p", "Alice"⟩] : List PeerInfo).map PeerInfo.id) := by
  decide

/-- C2, amended.  For every join whose `peer_id` is not already a member
of the room: the joiner's websocket receives first a `room_state` frame
listing exactly the members present immediately before the join (its own
id therefore absent), every one of those pre-existing members' websockets
receives exactly one `new_peer` frame for the joiner (the joiner's
socket receives none, being excluded by id), no other frame is sent, and
afterwards the joiner is registered in the room. -/
theorem join_deliveries
    (db : List RoomRec) (cm : CM) (rid : Nat) (pid name : String) (ws : Nat)
    (now : Int) (hnew : pid ∉ dkeys (roomMembers cm rid)) :
    (connect db cm rid pid name ws now).2.2 =
      (ws, OutMsg.roomState
        ((roomMembers cm rid).map (fun pd => PeerInfo.mk pd.1 pd.2.name)))
      :: (roomMembers cm rid).map (fun pd => (pd.2.ws, OutMsg.newPeer pid name))
    ∧ dlookup (roomMembers (connect db cm rid pid name ws now).2.1 rid) pid
        = some ⟨name, ws⟩ := by
  cases hlk : dlookup cm.rooms rid with
  | some members =>
      have hmem : roomMembers cm rid = members := by unfold roomMembers; rw [hlk]; rfl
      rw [hmem] at hnew ⊢
      constructor
      · unfold connect
        simp only [hlk, Option.isSome_some, if_true, Option.getD_some]
        rw [broadcast_exclude_not_mem ⟨cm.rooms, cm.main_menu_users⟩ rid
          (OutMsg.newPeer pid name) pid members hlk hnew]
      · unfold connect roomMembers
        simp only [hlk, Option.isSome_some, if_true, Option.getD_some]
        rw [dlookup_dinsert_self]
        simp only [Option.getD_some]
        rw [dlookup_dinsert_self]
  | none =>
      have hmem : roomMembers cm rid = [] := by unfold roomMembers; rw [hlk]; rfl
      rw [hmem]
      have hsome : (dlookup cm.rooms rid).isSome = false := by rw [hlk]; rfl
      constructor
      · unfold connect
        simp only [hlk, Option.isSome_none, Bool.false_eq_true, if_false]
        rw [broadcast_exclude_not_mem ⟨dinsert cm.rooms rid [], cm.main_menu_users⟩ rid
          (OutMsg.newPeer pid name) pid [] (dlookup_dinsert_self cm.rooms rid []) (by simp [dkeys])]
        simp [dlookup_dinsert_self]
      · unfold connect roomMembers
        simp only [hlk, Option.isSome_none, Bool.false_eq_true, if_false]
        rw [dlookup_dinsert_self]
        simp only [Option.getD_some]
        rw [dlookup_dinsert_self]

/-- Witness for C2's amended theorem: `"p"` joins room 1 where only
`"q"` (ws 5) is present; `"p"`'s socket 9 gets `room_state [q]`, `"q"`'s
socket gets `new_peer p`, and `"p"` is then registered. -/
theorem join_deliveries_witness :
    let cmw : CM := ⟨[(1, [("q", ⟨"Q", 5⟩)])], []⟩
    (connect [] cmw 1 "p" "P" 9 0).2.2 =
      [(9, OutMsg.roomState [⟨"q", "Q"⟩]), (5, OutMsg.newPeer "p" "P")]
    ∧ dlookup (roomMembers (connect [] cmw 1 "p" "P" 9 0).2.1 1) "p"
        = some ⟨"P", 9⟩ := by
  intro cmw
  have h := join_deliveries [] cmw 1 "p" "P" 9 0 (by decide)
  exact ⟨h.1, h.2⟩

/-! ## C5: broadcast failure handling -/

/-- Registry with room 1 holding `p1` (ws 1) and `p2` (ws 2), used for
the broadcast failure scenarios. -/
def cmTwo : CM := ⟨[(1, [("p1", ⟨"A", 1⟩), ("p2", ⟨"B", 2⟩)])], []⟩

/-- Counterexample to C5.  In `cmTwo`, broadcasting with `p2`'s
websocket (handle 2) failing: `broadcast` (`main.py` lines 112-118)
hands all sends to `asyncio.gather(*tasks)` with no
`return_exceptions=True` and no `try`/`except`, so the failure IS
propagated to the broadcast caller (second component `false`), and
`broadcast` never touches `self.rooms`, so the failing recipient is NOT
removed from the membership (the function returns only the delivered
frames — `p2` stays registered in `cmTwo`). -/
theorem broadcast_failure_propagates_counterexample :
    broadcast cmTwo 1 (OutMsg.peerLeft "x") none [2]
      = ([(1, OutMsg.peerLeft "x")], false)
    ∧ dlookup (roomMembers cmTwo 1) "p2" = some ⟨"B", 2⟩ := by
  decide

/-- C5, amended.  A delivery failure to one broadcast recipient still
never blocks or fails delivery to the other recipients — every
non-excluded member whose websocket works receives the message,
whatever the set of failing websockets — but the failure IS propagated
to the broadcast caller (`asyncio.gather` re-raises it), and the
failing recipient is NOT removed from the membership (`broadcast` does
not modify the registry; only the lobby notification path removes dead
connections). -/
theorem broadcast_delivers_to_working_recipients
    (cm : CM) (rid : Nat) (msg : OutMsg) (excl : Option String) (bad : List Nat)
    (pid : String) (p : Peer) (hmem : (pid, p) ∈ roomMembers cm rid)
    (hexcl : some pid ≠ excl) (hok : p.ws ∉ bad) :
    (p.ws, msg) ∈ (broadcast cm rid msg excl bad).1 := by
  unfold broadcast
  cases hlk : dlookup cm.rooms rid with
  | none =>
      rw [show roomMembers cm rid = [] by unfold roomMembers; rw [hlk]; rfl] at hmem
      simp at hmem
  | some members =>
      rw [show roomMembers cm rid = members by unfold roomMembers; rw [hlk]; rfl] at hmem
      simp only []
      apply List.mem_map.mpr
      refine ⟨(pid, p), ?_, rfl⟩
      apply List.mem_filter.mpr
      refine ⟨List.mem_filter.mpr ⟨hmem, by simpa using hexcl⟩, ?_⟩
      simpa using hok

/-- Witness for C5's amended theorem: in `cmTwo` with `p2`'s websocket
failing, `p1`'s working websocket (handle 1) still receives the frame. -/
theorem broadcast_delivers_to_working_recipients_witness :
    ((1 : Nat), OutMsg.peerLeft "x") ∈ (broadcast cmTwo 1 (OutMsg.peerLeft "x") none [2]).1 :=
  broadcast_delivers_to_working_recipients cmTwo 1 (OutMsg.peerLeft "x") none [2]
    "p1" ⟨"A", 1⟩ (by decide) (by decide) (by decide)

/-! ## C8: what the steady-state loop does with other message kinds -/

/-- Counterexample to C8.  A frame whose kind is `"chat"` — not `sdp`,
`ice` or `refresh_users` — but which carries a `to_id` is NOT dropped:
the relay loop (`main.py` lines 291-296) only checks `data.get("to_id")`
and forwards the frame to the target peer (here `p2`'s websocket 2). -/
theorem unknown_kind_relayed_counterexample :
    handle_message cmTwo 1 "p1" 9 ⟨some "chat", some "p2", "zzz"⟩
      = [(2, OutMsg.relayed ⟨some "chat", some "p2", "zzz"⟩ "p1")]
    ∧ [(2, OutMsg.relayed ⟨some "chat", some "p2", "zzz"⟩ "p1")] ≠ ([] : List Send) := by
  decide

/-- C8, amended.  A steady-state frame whose kind is not
`refresh_users` is dropped — no send, the registry untouched, the
session staying in its `Joined` receive loop — exactly when it carries
no truthy `to_id`; when it does carry one, it is relayed to that target
like an `sdp`/`ice` frame regardless of its (possibly missing) kind.
In either case nothing disconnects the session. -/
theorem non_refresh_frame_dropped_iff_no_target
    (cm : CM) (rid : Nat) (pid : String) (ws : Nat) (data : InMsg)
    (hty : data.type ≠ some "refresh_users") :
    ((data.to_id = none ∨ data.to_id = some "") →
      handle_message cm rid pid ws data = [])
    ∧ (∀ t, data.to_id = some t → t ≠ "" →
      handle_message cm rid pid ws data
        = send_to_peer cm rid t (OutMsg.relayed data pid)) := by
  constructor
  · intro h
    unfold handle_message
    rw [if_neg hty]
    rcases h with h | h
    · rw [h]
    · rw [h]
      simp
  · intro t ht hne
    unfold handle_message
    rw [if_neg hty, ht]
    simp [hne]

/-- Witness for C8's amended theorem: a `"ping"` frame with no `to_id`
produces no send at all. -/
theorem non_refresh_frame_dropped_iff_no_target_witness :
    handle_message cmTwo 1 "p1" 9 ⟨some "ping", none, ""⟩ = [] :=
  (non_refresh_frame_dropped_iff_no_target cmTwo 1 "p1" 9 ⟨some "ping", none, ""⟩
    (by decide)).1 (Or.inl rfl)

/-! ## C9: peer-id uniqueness across the registry -/

theorem connectRooms_keys_nodup (rooms : List (Nat × List (String × Peer)))
    (rid : Nat) (pid : String) (p : Peer) (h1 : (dkeys rooms).Nodup) :
    (dkeys (connectRooms rooms rid pid p)).Nodup := by
  unfold connectRooms
  rcases hlk : dlookup rooms rid with _ | members
  · simp only [Option.isSome_none, Bool.false_eq_true, if_false,
      dlookup_dinsert_self, Option.getD_some]
    exact dkeys_dinsert_nodup _ (dkeys_dinsert_nodup _ h1)
  · simp only [Option.isSome_some, if_true, hlk, Option.getD_some]
    exact dkeys_dinsert_nodup _ h1

theorem connectRooms_values_nodup (rooms : List (Nat × List (String × Peer)))
    (rid : Nat) (pid : String) (p : Peer)
    (h2 : ∀ e ∈ rooms, (dkeys e.2).Nodup) :
    ∀ e ∈ connectRooms rooms rid pid p, (dkeys e.2).Nodup := by
  intro e he
  unfold connectRooms at he
  rcases hlk : dlookup rooms rid with _ | members
  · rw [hlk] at he
    simp only [Option.isSome_none, Bool.false_eq_true, if_false,
      dlookup_dinsert_self, Option.getD_some] at he
    rcases mem_dinsert he with rfl | he'
    · simp [dkeys, dinsert]
    · rcases mem_dinsert he' with rfl | he''
      · simp [dkeys]
      · exact h2 e he''
  · rw [hlk] at he
    simp only [Option.isSome_some, if_true, hlk, Option.getD_some] at he
    rcases mem_dinsert he with rfl | he'
    · exact dkeys_dinsert_nodup _ (h2 _ (mem_of_dlookup_eq_some hlk))
    · exact h2 e he'

theorem disconnect_preserves_nodup (cm : CM) (rid : Nat) (pid : String)
    (h1 : (dkeys cm.rooms).Nodup) (h2 : ∀ e ∈ cm.rooms, (dkeys e.2).Nodup) :
    (dkeys (disconnect cm rid pid).1.rooms).Nodup
    ∧ ∀ e ∈ (disconnect cm rid pid).1.rooms, (dkeys e.2).Nodup := by
  unfold disconnect
  rcases hlk : dlookup cm.rooms rid with _ | members
  · exact ⟨h1, h2⟩
  · by_cases hp : (dlookup members pid).isSome = true
    · by_cases hemp : derase members pid = []
      · simp only [hp, if_true, hemp, if_pos]
        exact ⟨dkeys_derase_nodup _ h1, fun e he => h2 e (mem_derase he)⟩
      · simp only [hp, if_true, if_neg hemp]
        refine ⟨dkeys_dinsert_nodup _ h1, ?_⟩
        intro e he
        rcases mem_dinsert he with rfl | he'
        · exact dkeys_derase_nodup _ (h2 _ (mem_of_dlookup_eq_some hlk))
        · exact h2 e he'
    · simp only [if_neg hp]
      exact ⟨h1, h2⟩

/-- C9, amended.  In every reachable registry state the dictionary shape
is maintained: the room map has no duplicate room key, each single
room's membership holds a given `peer_id` at most once, and the lobby
(`main_menu_users`) holds a given `peer_id` at most once.  (The claim's
cross-structure exclusivity — one room at a time, never in a room and
the lobby simultaneously — is NOT enforced by the code; see the
counterexample.) -/
theorem registry_per_structure_uniqueness (cm : CM) (h : Reachable cm) :
    (dkeys cm.rooms).Nodup
    ∧ (∀ e ∈ cm.rooms, (dkeys e.2).Nodup)
    ∧ (dkeys cm.main_menu_users).Nodup := by
  induction h with
  | init => exact ⟨List.nodup_nil, by simp [CM.init], List.nodup_nil⟩
  | join cm rid pid p hr ih =>
      exact ⟨connectRooms_keys_nodup cm.rooms rid pid p ih.1,
        connectRooms_values_nodup cm.rooms rid pid p ih.2.1, ih.2.2⟩
  | leave cm rid pid hr ih =>
      have h := disconnect_preserves_nodup cm rid pid ih.1 ih.2.1
      have hmm : (disconnect cm rid pid).1.main_menu_users = cm.main_menu_users := by
        unfold disconnect
        rcases hlk : dlookup cm.rooms rid with _ | members
        · rfl
        · by_cases hp : (dlookup members pid).isSome = true
          · by_cases hemp : derase members pid = []
            · simp only [hp, if_true, hemp, if_pos]
            · simp only [hp, if_true, if_neg hemp]
          · simp only [if_neg hp]
      exact ⟨h.1, h.2, by rw [hmm]; exact ih.2.2⟩
  | lobby_join cm pid name ws hr ih =>
      exact ⟨ih.1, ih.2.1, dkeys_dinsert_nodup _ ih.2.2⟩
  | lobby_leave cm pid hr ih =>
      exact ⟨ih.1, ih.2.1, dkeys_derase_nodup _ ih.2.2⟩

/-- Reachable state in which peer id `"p"` is registered in rooms 1 and
2 at once: join room 1 as `"p"`, then join room 2 as `"p"`. -/
def badState : CM := connectCM (connectCM CM.init 1 "p" ⟨"A", 1⟩) 2 "p" ⟨"A", 2⟩

/-- Reachable state in which peer id `"p"` is registered in room 1 and
in the lobby at once. -/
def badLobbyState : CM := add_main_menu_user (connectCM CM.init 1 "p" ⟨"A", 1⟩) "p" "A" 3

/-- Counterexample to C9.  Nothing in `connect` or
`add_main_menu_user` (`main.py` lines 81-97 and 171-174) checks the
other rooms or the lobby: from the initial state, joining room 1 as
`"p"` and then room 2 as `"p"` is accepted — `"p"` is simultaneously a
member of two rooms — and joining room 1 as `"p"` and then the main
menu as `"p"` likewise puts `"p"` in a room and the lobby at once. -/
theorem same_peer_in_two_rooms_counterexample :
    (Reachable badState
      ∧ "p" ∈ dkeys (roomMembers badState 1)
      ∧ "p" ∈ dkeys (roomMembers badState 2))
    ∧ (Reachable badLobbyState
      ∧ "p" ∈ dkeys (roomMembers badLobbyState 1)
      ∧ "p" ∈ dkeys badLobbyState.main_menu_users) := by
  refine ⟨⟨?_, by decide, by decide⟩, ⟨?_, by decide, by decide⟩⟩
  · exact Reachable.join _ 2 "p" ⟨"A", 2⟩
      (Reachable.join _ 1 "p" ⟨"A", 1⟩ Reachable.init)
  · exact Reachable.lobby_join _ "p" "A" 3
      (Reachable.join _ 1 "p" ⟨"A", 1⟩ Reachable.init)

/-- Witness for C9's amended theorem at the concrete reachable state
`badState`. -/
theorem registry_per_structure_uniqueness_witness :
    (dkeys badState.rooms).Nodup
    ∧ (dkeys ([("p", (⟨"A", 1⟩ : Peer))] : List (String × Peer))).Nodup
    ∧ (dkeys badState.main_menu_users).Nodup :=
  have h := registry_per_structure_uniqueness badState
    (Reachable.join _ 2 "p" ⟨"A", 2⟩ (Reachable.join _ 1 "p" ⟨"A", 1⟩ Reachable.init))
  ⟨h.1, h.2.1 (1, [("p", ⟨"A", 1⟩)]) (by decide), h.2.2⟩

end CallMi

